import Mathlib

/-!
Verification development for the review-intelligence pipeline
(`modules/review_analyzer.py`, `modules/usp_dictionary.py`,
`modules/oliveyoung_review_crawler.py`).

Python strings are modelled as `List Char`; keyword tables keep their
source names and entries.  Scores are floats in the source whose values
are always integer multiples of 0.1, so they are modelled exactly as
integers scaled by 10 (weight 1.2 becomes 12, the threshold -0.5
becomes -5).  The regular expressions used by the source are modelled
by a small matcher (`Rx` below) covering exactly the constructs the
source patterns use, with Python `re` semantics: leftmost match,
greedy quantifiers, alternations tried left to right.
-/

/-- Regular-expression syntax: the fragment used by the source patterns.
`anyR lo hi` is the Python `.` repeated between `lo` and `hi` times
(matching any character except a newline), `wsOne`/`wsStar` are
`\s`/`\s*`, `opt` is `(...)?`. -/
inductive Rx where
  | fail : Rx
  | eps : Rx
  | lit : List Char → Rx
  | anyR : Nat → Nat → Rx
  | wsOne : Rx
  | wsStar : Rx
  | alt : Rx → Rx → Rx
  | seq : Rx → Rx → Rx
  | opt : Rx → Rx

/-- Whitespace characters recognised by `\s` and by Python's `strip`
(the inputs in this development only ever use the ASCII ones). -/
def isWsChar (c : Char) : Bool :=
  c == ' ' || c == '\t' || c == '\n' || c == '\r'

/-- Try the continuation after dropping each listed number of
characters, in order, returning the first success (backtracking). -/
def tryDrops (k : List Char → Option Nat) (s : List Char) : List Nat → Option Nat
  | [] => none
  | n :: ns =>
    match k (s.drop n) with
    | some r => some r
    | none => tryDrops k s ns

/-- CPS matcher: match `r` at the head of `s` and feed the remainder to
`k`; candidate splits are tried in Python preference order (greedy
quantifiers, alternatives left to right), so the first success agrees
with Python `re`. -/
def Rx.matchK : Rx → List Char → (List Char → Option Nat) → Option Nat
  | .fail, _, _ => none
  | .eps, s, k => k s
  | .lit cs, s, k => if cs.isPrefixOf s then k (s.drop cs.length) else none
  | .anyR lo hi, s, k =>
    let m := min hi (s.takeWhile (fun c => c != '\n')).length
    if m < lo then none
    else tryDrops k s ((List.range (m - lo + 1)).map (fun i => m - i))
  | .wsOne, s, k =>
    match s with
    | [] => none
    | c :: rest => if isWsChar c then k rest else none
  | .wsStar, s, k =>
    let p := (s.takeWhile isWsChar).length
    tryDrops k s ((List.range (p + 1)).map (fun i => p - i))
  | .alt r₁ r₂, s, k =>
    match Rx.matchK r₁ s k with
    | some r => some r
    | none => Rx.matchK r₂ s k
  | .seq r₁ r₂, s, k => Rx.matchK r₁ s (fun s' => Rx.matchK r₂ s' k)
  | .opt r, s, k =>
    match Rx.matchK r s k with
    | some res => some res
    | none => k s

/-- Length of the match of `r` at the start of `s` (Python preference
order), if any. -/
def Rx.matchLen (r : Rx) (s : List Char) : Option Nat :=
  r.matchK s (fun rest => some (s.length - rest.length))

/-- Scan for the leftmost position where `r` matches; returns
(start index, match length) like Python `re.search` /
`match.start()` / `match.group(0)`. -/
def searchFrom (r : Rx) : Nat → List Char → Option (Nat × Nat)
  | i, s =>
    match r.matchLen s with
    | some len => some (i, len)
    | none =>
      match s with
      | [] => none
      | _ :: t => searchFrom r (i + 1) t

def reSearch (r : Rx) (s : List Char) : Option (Nat × Nat) :=
  searchFrom r 0 s

/-- Python re.search succeeding, as a Bool. -/
def reTest (r : Rx) (s : List Char) : Bool :=
  (reSearch r s).isSome

/-- Python match.group(0): the literal matched span. -/
def group0 (r : Rx) (s : List Char) : Option (List Char) :=
  (reSearch r s).map (fun p => (s.drop p.1).take p.2)

/-- Literal pattern from a string. -/
def rxLit (s : String) : Rx := .lit s.data

/-- Ordered alternation of a list of patterns. -/
def rxAlts (rs : List Rx) : Rx := rs.foldr .alt .fail

/-- Ordered alternation of literal strings, `(a|b|c)`. -/
def rxAltL (ss : List String) : Rx := rxAlts (ss.map rxLit)

/-- Concatenation of a list of patterns. -/
def rxCat (rs : List Rx) : Rx := rs.foldr .seq .eps

/-- Pattern dot-brace 0 to n. -/
def rxAny (n : Nat) : Rx := .anyR 0 n

-- Source: NEGATION_PATTERNS (review_analyzer.py lines 13-16).
def NEGATION_PATTERNS : List Rx :=
  [rxLit "없", rxLit "않", rxCat [rxLit "안", .wsOne], rxCat [rxLit "못", .wsOne],
   rxLit "아니", rxLit "NO", rxLit "no",
   rxLit "전혀", rxLit "별로", rxLit "그다지", rxLit "딱히"]

/-- First index of `needle` in `hay` scanning from position `i`
(Python `str.find`). -/
def findSubFrom (needle : List Char) : Nat → List Char → Option Nat
  | i, s =>
    if needle.isPrefixOf s then some i
    else
      match s with
      | [] => none
      | _ :: t => findSubFrom needle (i + 1) t

def findSub (hay needle : List Char) : Option Nat :=
  findSubFrom needle 0 hay

/-- Python's `needle in hay` substring test. -/
def containsSub (hay needle : List Char) : Bool :=
  (findSub hay needle).isSome

/-- Source: `has_negation_before` (review_analyzer.py lines 162-176).
Checks for a negation marker in the `window` characters before the
first occurrence of `keyword`. -/
def has_negation_before (text : List Char) (keyword : String) (window : Nat := 8) : Bool :=
  match findSub text keyword.data with
  | none => false
  | some idx =>
    let start := idx - window
    let before := (text.drop start).take (idx - start)
    NEGATION_PATTERNS.any (fun r => reTest r before)

-- Source: POSITIVE_KEYWORDS (review_analyzer.py lines 24-47).
-- Weights are the source floats scaled by 10.
def POSITIVE_KEYWORDS : List (String × Int) :=
  [("좋아요", 10), ("좋아", 10), ("좋음", 10), ("최고", 12), ("대박", 12),
   ("굿", 10), ("짱", 10), ("완전", 8), ("진짜", 6),
   ("효과", 8), ("개선", 10), ("좋아졌", 10), ("나아졌", 10),
   ("촉촉", 12), ("보습", 10), ("수분", 8), ("촉촉해", 12), ("촉촉하고", 12),
   ("흡수", 8), ("빠른흡수", 10), ("스며", 8), ("흡수빠름", 10),
   ("순해요", 12), ("순하고", 12), ("순함", 12), ("무자극", 12),
   ("가성비", 10), ("갓성비", 10), ("저렴", 8), ("합리적", 8),
   ("발림성", 8), ("부드러", 10), ("산뜻", 10), ("가벼", 8),
   ("쫀쫀", 8), ("촉촉함", 10),
   ("향좋아", 10), ("향이좋", 10), ("은은", 8),
   ("재구매", 15), ("재구", 12), ("또사", 12), ("추천", 12), ("강추", 15),
   ("인생템", 15), ("꿀템", 12), ("만족", 10), ("득템", 10),
   ("화장잘", 10), ("밀착", 8), ("지속력", 8), ("커버력", 8)]

-- Source: NEGATIVE_KEYWORDS (review_analyzer.py lines 50-68).
def NEGATIVE_KEYWORDS : List (String × Int) :=
  [("트러블", 12), ("뾰루지", 12), ("올라", 6), ("빨개", 8),
   ("자극", 10), ("따가", 10), ("따끔", 10), ("화끈", 8),
   ("가려", 8), ("간지러", 8), ("알러지", 10), ("두드러기", 10),
   ("끈적", 10), ("끈적거", 10), ("무거", 8), ("답답", 8),
   ("기름", 6), ("번들", 8), ("유분", 6),
   ("밀림", 10), ("밀려", 10), ("들뜸", 8), ("각질", 6), ("뭉침", 8),
   ("별로", 8), ("애매", 6), ("모르겠", 6), ("효과없", 10),
   ("기대이하", 10), ("실망", 10), ("아쉬", 8), ("후회", 10),
   ("향강해", 8), ("향이강", 8), ("인공향", 8),
   ("비싸", 8), ("비쌈", 8),
   ("비추", 12), ("환불", 10), ("교환", 6)]

-- Source: REVERSIBLE_KEYWORDS (review_analyzer.py lines 71-75).
def REVERSIBLE_KEYWORDS : List String :=
  ["자극", "끈적", "끈적거", "트러블", "뾰루지", "밀림", "밀려",
   "들뜸", "무거", "답답", "기름", "번들", "각질", "뭉침",
   "따가", "가려", "화끈", "흡수안"]

/-- One entry of CONTEXT_SENSITIVE_KEYWORDS: positive-context patterns,
negative-context patterns, and the default polarity. -/
structure CtxConfig where
  positive_patterns : List Rx
  negative_patterns : List Rx
  defaultPolarity : String

-- Source: CONTEXT_SENSITIVE_KEYWORDS (review_analyzer.py lines 78-139),
-- in the source dict's insertion order.
def CONTEXT_SENSITIVE_KEYWORDS : List (String × CtxConfig) :=
  [("냄새",
    { positive_patterns :=
        [rxCat [rxLit "냄새", rxAny 10, rxLit "좋"],
         rxCat [rxLit "좋은", rxAny 5, rxLit "냄새"],
         rxCat [rxLit "냄새", rxAny 10, rxLit "괜찮"],
         rxCat [rxLit "냄새", rxAny 5,
                rxAlts [rxLit "없", rxCat [rxLit "안", .wsStar, rxLit "나"]]],
         rxCat [rxLit "냄새", rxAny 10, rxLit "은은"]],
      negative_patterns :=
        [rxCat [rxLit "냄새", rxAny 5,
                rxAltL ["나요", "나서", "심해", "이상", "별로", "싫"]]],
      defaultPolarity := "neutral" }),
   ("향",
    { positive_patterns :=
        [rxCat [rxLit "향", rxAny 10, rxLit "좋"],
         rxCat [rxLit "좋은", rxAny 5, rxLit "향"],
         rxCat [rxLit "향", rxAny 10, rxAltL ["은은", "부드", "상쾌", "괜찮", "마음에"]],
         rxCat [rxLit "향기", rxAny 5, rxAltL ["좋", "나", "롭"]]],
      negative_patterns :=
        [rxCat [rxLit "향", rxAny 5, rxAltL ["강해", "쎄", "별로", "거부", "인공", "싫"]]],
      defaultPolarity := "neutral" }),
   ("트러블",
    { positive_patterns :=
        [rxCat [rxLit "트러블", rxAny 15,
                rxAlts [rxLit "없",
                        rxCat [rxLit "안", .wsStar, rxAltL ["나", "생", "올라"]]]],
         rxCat [rxLit "트러블", rxAny 5, .opt (rxAltL ["이", "가"]), rxAny 10,
                rxAltL ["없", "안"]],
         rxCat [rxAltL ["있었는데", "많았는데", "났었는데"], rxAny 20,
                rxAltL ["트러블", "뾰루지"], rxAny 10, rxAltL ["없", "안"]],
         rxCat [rxLit "트러블", rxAny 20, rxAltL ["사라", "줄", "좋아", "개선", "진정"]],
         rxCat [rxAltL ["쓰고", "바르고", "사용하고"], rxAny 20, rxLit "트러블",
                rxAny 10, rxAltL ["없", "안"]]],
      negative_patterns :=
        [rxCat [rxLit "트러블", rxAny 5, rxAltL ["나", "생기", "올라왔", "났"]],
         rxCat [rxAltL ["쓰고", "바르고", "사용하고"], rxAny 10, rxLit "트러블",
                rxAny 5, rxAltL ["나", "생"]]],
      defaultPolarity := "negative" }),
   ("자극",
    { positive_patterns :=
        [rxCat [rxLit "자극", rxAny 15, rxAltL ["없", "안"]],
         rxCat [rxLit "자극", rxAny 5, .opt (rxAltL ["이", "가"]), rxAny 10,
                rxAltL ["없", "안"]],
         rxCat [rxAltL ["무", "저"], rxLit "자극"],
         rxCat [rxLit "자극", rxAny 10, rxAltL ["적", "덜"]],
         rxCat [rxAltL ["예민", "민감"], rxAny 15, rxAltL ["인데", "한데"], rxAny 15,
                rxLit "자극", rxAny 10, rxAltL ["없", "안", "괜찮"]]],
      negative_patterns :=
        [rxCat [rxLit "자극", rxAny 5, rxAltL ["있", "되", "느껴", "심"]],
         rxCat [rxLit "자극", rxAny 5, .opt (rxAltL ["이", "가"]), rxAny 5,
                rxAltL ["있", "되"]]],
      defaultPolarity := "negative" }),
   ("끈적",
    { positive_patterns :=
        [rxCat [rxLit "끈적", rxAny 15, rxAltL ["없", "안"]],
         rxCat [rxLit "끈적", rxAny 5, .opt (rxAltL ["임", "거림"]), rxAny 10,
                rxAltL ["없", "안"]],
         rxCat [rxAltL ["생각보다", "의외로"], rxAny 10, rxLit "끈적", rxAny 10,
                rxAltL ["없", "안"]]],
      negative_patterns :=
        [rxCat [rxLit "끈적", rxAny 5, rxAltL ["여", "거려", "해", "함", "있"]]],
      defaultPolarity := "negative" })]

-- Source: SENTENCE_REVERSAL_PATTERNS (review_analyzer.py lines 142-159).
def SENTENCE_REVERSAL_PATTERNS : List (Rx × String) :=
  [(rxCat [rxAltL ["평소", "원래", "전에", "예전"], rxAny 15,
           rxAltL ["트러블", "뾰루지", "자극", "각질"], rxAny 15,
           rxAltL ["있", "많", "났", "생"], rxAny 20,
           rxAlts [rxLit "이거", rxCat [rxLit "이", .wsStar, rxLit "제품"], rxLit "사용"],
           rxAny 20, rxAltL ["없", "안", "사라", "줄", "좋아"]], "positive"),
   (rxCat [rxAltL ["트러블", "뾰루지", "자극", "끈적", "각질"], rxAny 10,
           .opt (rxAltL ["이", "가"]), .wsStar,
           rxAltL ["있었는데", "많았는데", "났었는데", "생겼었는데", "심했는데"],
           rxAny 20, rxAltL ["없", "안", "사라", "줄", "진정"]], "positive"),
   (rxCat [rxAltL ["걱정", "염려", "불안"], rxAny 15,
           rxAltL ["트러블", "자극", "끈적"], rxAny 15,
           rxAltL ["없", "안", "괜찮"]], "positive"),
   (rxCat [rxAltL ["민감", "예민", "약한"], rxAny 10,
           .opt (rxAltL ["피부", "편"]), rxAny 15,
           rxAltL ["트러블", "자극"], rxAny 15,
           rxAltL ["없", "안", "괜찮"]], "positive"),
   (rxCat [rxAltL ["쓰고", "바르고", "사용하고", "발라보니", "써보니"], rxAny 20,
           rxAltL ["트러블", "뾰루지", "자극", "끈적"], rxAny 15,
           rxAltL ["없", "안", "사라", "줄"]], "positive"),
   (rxCat [rxAltL ["트러블", "뾰루지", "자극"], rxAny 10,
           .opt (rxAltL ["이", "가"]), .wsStar, rxLit "평소", rxAny 10,
           rxAltL ["있", "많"], rxAny 20,
           rxAlts [rxLit "이거", rxCat [rxLit "이", .wsStar, rxLit "제품"], rxLit "쓰고"],
           rxAny 20,
           .opt (rxAlts [rxCat [rxLit "그런", .wsStar, rxLit "게"], rxLit "그런거"]),
           .wsStar, rxAltL ["없", "안"]], "positive"),
   (rxCat [rxAltL ["원래", "평소"], rxAny 10,
           rxAltL ["트러블", "뾰루지", "자극"], rxAny 10,
           rxAltL ["잘", "자주"], rxAny 10,
           rxAltL ["나", "생기", "올라"], rxAny 15,
           rxAltL ["인데", "편인데"], rxAny 15,
           rxAltL ["없", "안"]], "positive"),
   (rxCat [rxAltL ["트러블", "뾰루지", "자극", "끈적"], rxAny 10,
           rxAltL ["많은", "자주", "쉬운"], rxAny 10,
           rxAltL ["편", "타입"], rxAny 15,
           rxAltL ["인데", "이지만"], rxAny 15,
           rxAltL ["괜찮", "좋", "없", "안"]], "positive")]

/-- Source: `analyze_context_sensitive_keyword` (review_analyzer.py
lines 179-201), applied to a config taken from
CONTEXT_SENSITIVE_KEYWORDS: positive patterns win, then negative
patterns, then the default polarity. -/
def analyze_context_sensitive_keyword (text : List Char) (cfg : CtxConfig) : String :=
  if cfg.positive_patterns.any (fun r => reTest r text) then "positive"
  else if cfg.negative_patterns.any (fun r => reTest r text) then "negative"
  else cfg.defaultPolarity

/-- The keywords that a sentence-reversal match marks as already
resolved (review_analyzer.py line 228). -/
def REVERSAL_MARK_KEYWORDS : List String :=
  ["트러블", "뾰루지", "자극", "끈적", "각질"]

/-- Step 0 of `analyze_sentiment_with_context` (lines 217-230): run
every sentence-reversal pattern; each positive match appends an
evidence token built from the first 20 characters of the matched span,
adds 2.0 to the score, and marks the listed keywords found inside the
span.  Returns (positive evidence, marked keywords, score delta). -/
def reversalGo (text : List Char) : List (Rx × String) → List String × List String × Int
  | [] => ([], [], 0)
  | (p, stype) :: rest =>
    let r := reversalGo text rest
    match group0 p text with
    | some span =>
      if stype = "positive" then
        (("문맥전환긍정(" ++ String.mk (span.take 20) ++ "...)") :: r.1,
         REVERSAL_MARK_KEYWORDS.filter (fun kw => containsSub span kw.data) ++ r.2.1,
         20 + r.2.2)
      else r
    | none => r

/-- Step 1 of `analyze_sentiment_with_context` (lines 232-243): each
context-sensitive keyword occurring in the text and not already marked
contributes +1.0 with evidence token keyword+"(긍정)", or -1.0 with the
bare keyword, or nothing when neutral. -/
def ctxGo (text : List Char) (marked : List String) :
    List (String × CtxConfig) → List String × List String × Int
  | [] => ([], [], 0)
  | (kwd, cfg) :: rest =>
    let r := ctxGo text marked rest
    if containsSub text kwd.data && !(marked.contains kwd) then
      let res := analyze_context_sensitive_keyword text cfg
      if res = "positive" then ((kwd ++ "(긍정)") :: r.1, r.2.1, 10 + r.2.2)
      else if res = "negative" then (r.1, kwd :: r.2.1, r.2.2 - 10)
      else r
    else r

/-- Step 2 of `analyze_sentiment_with_context` (lines 245-251): plain
positive keywords count unless negated within the 8-character window. -/
def posGo (text : List Char) : List (String × Int) → List String × Int
  | [] => ([], 0)
  | (kwd, w) :: rest =>
    let r := posGo text rest
    if containsSub text kwd.data && !(has_negation_before text kwd) then
      (kwd :: r.1, w + r.2)
    else r

/-- Step 3 of `analyze_sentiment_with_context` (lines 253-276): plain
negative keywords, skipping context-sensitive ones and ones marked by a
reversal match; reversible keywords preceded by a negation marker count
as positive with evidence token keyword+"없음". -/
def negGo (text : List Char) (marked : List String) :
    List (String × Int) → List String × List String × Int
  | [] => ([], [], 0)
  | (kwd, w) :: rest =>
    let r := negGo text marked rest
    if CONTEXT_SENSITIVE_KEYWORDS.any (fun p => p.1 == kwd) then r
    else if marked.contains kwd then r
    else if containsSub text kwd.data then
      if REVERSIBLE_KEYWORDS.contains kwd then
        if has_negation_before text kwd then ((kwd ++ "없음") :: r.1, r.2.1, w + r.2.2)
        else (r.1, kwd :: r.2.1, r.2.2 - w)
      else (r.1, kwd :: r.2.1, r.2.2 - w)
    else r

/-- Python `str.strip` restricted to the whitespace characters above. -/
def stripWs (l : List Char) : List Char :=
  ((l.dropWhile isWsChar).reverse.dropWhile isWsChar).reverse

/-- Line 211 of the source: replace newlines by spaces, then strip. -/
def cleanText (text : List Char) : List Char :=
  stripWs (text.map (fun c => if c = '\n' then ' ' else c))

/-- Result of `analyze_sentiment_with_context`: the Python 4-tuple
(sentiment, positive_found, negative_found, score). -/
structure SentimentOutcome where
  sentiment : String
  positive_found : List String
  negative_found : List String
  score : Int
  deriving DecidableEq, Repr

/-- Source: `analyze_sentiment_with_context` (review_analyzer.py lines
204-284).  Steps 0-3 as above; evidence lists concatenate in step
order; final label is "negative" iff score < -0.5 (scaled: -5). -/
def analyze_sentiment_with_context (text : List Char) : SentimentOutcome :=
  let text_clean := cleanText text
  let r0 := reversalGo text_clean SENTENCE_REVERSAL_PATTERNS
  let marked := r0.2.1
  let r1 := ctxGo text_clean marked CONTEXT_SENSITIVE_KEYWORDS
  let r2 := posGo text_clean POSITIVE_KEYWORDS
  let r3 := negGo text_clean marked NEGATIVE_KEYWORDS
  let score := r0.2.2 + r1.2.2 + r2.2 + r3.2.2
  { sentiment := if score < -5 then "negative" else "positive",
    positive_found := r0.1 ++ r1.1 ++ r2.1 ++ r3.1,
    negative_found := r1.2.1 ++ r3.2.1,
    score := score }

/-- One review record as consumed by `analyze_reviews` and
`find_competitor_mentions`: `review.get('content', '')` and
`review.get('rating', 0)`. -/
structure Review where
  rating : Int
  content : List Char
  deriving DecidableEq, Repr

/-- The rating adjustment inside the `analyze_reviews` loop
(review_analyzer.py lines 636-640): a rating of 4 or more promotes a
non-negative sentiment to positive, a rating in 1..2 demotes a
non-positive sentiment to negative. -/
def adjustSentiment (sentiment : String) (rating : Int) : String :=
  if rating ≥ 4 && !(sentiment == "negative") then "positive"
  else if rating ≤ 2 && rating > 0 && !(sentiment == "positive") then "negative"
  else sentiment

/-- Counts of the `analyze_reviews` result.  The remaining fields of
the source dataclass (ratios, keyword frequency tables, strengths,
weaknesses, category scores, summary) are derived display data not
referenced by any claim and are not modelled. -/
structure ReviewAnalysisResult where
  total_count : Nat
  positive_count : Nat
  negative_count : Nat
  neutral_count : Nat
  deriving DecidableEq, Repr

/-- The counting loop of `analyze_reviews` (review_analyzer.py lines
629-647): per review, classify the content, adjust by rating, and
count into (positive, negative, neutral). -/
def countsGo : List Review → Nat × Nat × Nat
  | [] => (0, 0, 0)
  | rv :: rest =>
    let s := adjustSentiment (analyze_sentiment_with_context rv.content).sentiment rv.rating
    let r := countsGo rest
    if s = "positive" then (r.1 + 1, r.2.1, r.2.2)
    else if s = "negative" then (r.1, r.2.1 + 1, r.2.2)
    else (r.1, r.2.1, r.2.2 + 1)

/-- Source: `analyze_reviews` (review_analyzer.py lines 609-696),
restricted to the count fields. -/
def analyze_reviews (reviews : List Review) : ReviewAnalysisResult :=
  if reviews.isEmpty then ⟨0, 0, 0, 0⟩
  else
    let c := countsGo reviews
    ⟨reviews.length, c.1, c.2.1, c.2.2⟩

-- Source: COMPETITOR_BRANDS (review_analyzer.py lines 314-324).  The
-- source is a Python set literal whose iteration order is unspecified;
-- it is modelled as the literal's entries in written order with the
-- three repeated entries (클리오, 라로슈포제, 아벤느) occurring once, as
-- in the set.
def COMPETITOR_BRANDS : List String :=
  ["메디힐", "아누아", "라운드랩", "토리든", "스킨푸드", "이니스프리",
   "클리오", "롬앤", "에뛰드", "미샤", "더페이스샵", "네이처리퍼블릭",
   "코스알엑스", "cosrx", "넘버즈인", "아이소이", "비플레인", "달바",
   "메노킨", "가쉬", "구달", "바이오더마", "라로슈포제", "아벤느",
   "페리페라", "투쿨포스쿨", "웨이크메이크", "힌스",
   "스킨아쿠아", "비오레", "아넷사"]

/-- Python `str.lower` restricted to ASCII letters (the catalogue and
the inputs relevant to the claims contain no other cased characters). -/
def toLowerCh (c : Char) : Char :=
  if 'A' ≤ c ∧ c ≤ 'Z' then Char.ofNat (c.toNat + 32) else c

def toLowerL (l : List Char) : List Char := l.map toLowerCh

/-- Python Counter.most_common(n): entries sorted by count descending
(stable), truncated to n. -/
def mostCommon (n : Nat) (l : List (String × Nat)) : List (String × Nat) :=
  (l.mergeSort (fun a b => b.2 ≤ a.2)).take n

/-- Source: `find_competitor_mentions` (review_analyzer.py lines
359-385).  The mention counter maps each non-excluded catalogue brand
to the number of reviews whose lowercased content contains it; the
result is the top 10 by count.  (The source accumulates the same
counts with a `Counter` over the set-ordered catalogue; the counter's
contents do not depend on that order.) -/
def find_competitor_mentions (reviews : List Review) (current_brand : String) :
    List (String × Nat) :=
  let cur := stripWs (toLowerL current_brand.data)
  let mentions := COMPETITOR_BRANDS.filterMap (fun brand =>
    let bl := toLowerL brand.data
    if !cur.isEmpty && (containsSub cur bl || containsSub bl cur) then none
    else
      let c := (reviews.filter (fun rv => containsSub (toLowerL rv.content) bl)).length
      if c > 0 then some (brand, c) else none)
  mostCommon 10 mentions

/-- One taxonomy category (usp_dictionary.py trigger JSON):
a description and the keyword list. -/
structure CategoryData where
  description : String
  keywords : List String
  deriving DecidableEq, Repr

/-- One entry of the candidate queue.  The source also stores
discovery/approval timestamps (wall-clock metadata) which are not
modelled. -/
structure Candidate where
  word : String
  suggested_category : String
  example_sentences : List String
  status : String
  deriving DecidableEq, Repr

/-- One entry of the rejection log (timestamp not modelled). -/
structure RejectedEntry where
  word : String
  reason : String
  deriving DecidableEq, Repr

/-- In-memory state of `UspDictionary` (usp_dictionary.py lines 24-59):
the trigger taxonomy, the exclusion word list, the candidate queue and
the rejection log.  Python dicts keep unique keys in insertion order;
they are modelled as association lists. -/
structure UspDictionary where
  categories : List (String × CategoryData)
  exclusion_words : List String
  candidates : List Candidate
  rejected : List RejectedEntry
  deriving DecidableEq, Repr

/-- Source: `get_all_trigger_keywords` (usp_dictionary.py lines 61-66);
the union of all categories' keywords (set membership is all that is
ever used of it). -/
def get_all_trigger_keywords (d : UspDictionary) : List String :=
  d.categories.flatMap (fun p => p.2.keywords)

/-- Keyword list of the named category (first occurrence), empty when
the category is absent. -/
def lookupKeywords (cats : List (String × CategoryData)) (category : String) : List String :=
  match cats.find? (fun p => p.1 == category) with
  | some p => p.2.keywords
  | none => []

/-- Source: `get_keywords_by_category` (usp_dictionary.py lines 68-71). -/
def get_keywords_by_category (d : UspDictionary) (category : String) : List String :=
  lookupKeywords d.categories category

/-- Source: `get_exclusion_words` (usp_dictionary.py lines 80-82). -/
def get_exclusion_words (d : UspDictionary) : List String :=
  d.exclusion_words

/-- Source: `get_rejected_words` (usp_dictionary.py lines 84-87). -/
def get_rejected_words (d : UspDictionary) : List String :=
  d.rejected.map (fun e => e.word)

/-- Helper for `find_trigger_words`: walk the categories in order
collecting every keyword occurring in the text, and the first category
in which any keyword matched. -/
def ftwGo (text : List Char) : List (String × CategoryData) → List String × Option String
  | [] => ([], none)
  | (cat, cd) :: rest =>
    let ws := cd.keywords.filter (fun k => containsSub text k.data)
    let r := ftwGo text rest
    (ws ++ r.1, if ws.isEmpty then r.2 else some cat)

/-- Source: `find_trigger_words` (usp_dictionary.py lines 89-111).
Returns the matched category (the source's `'category'` field, None
until the first keyword matches) and all matched keywords, or none
when no keyword matches. -/
def find_trigger_words (d : UspDictionary) (text : List Char) :
    Option (Option String × List String) :=
  let r := ftwGo text d.categories
  if r.1.isEmpty then none else some (r.2, r.1)

/-- Source: `add_candidate` (usp_dictionary.py lines 186-207).
Returns false (leaving the state unchanged) when the word is already a
trigger keyword, already in the rejection log, or already in the
candidate queue; otherwise appends a pending candidate with up to 3
example sentences. -/
def add_candidate (d : UspDictionary) (word category : String)
    (example_sentences : List String) : Bool × UspDictionary :=
  if (get_all_trigger_keywords d).contains word
      || (get_rejected_words d).contains word then (false, d)
  else if d.candidates.any (fun c => c.word == word) then (false, d)
  else
    (true,
     { d with candidates :=
         d.candidates ++
           [{ word := word, suggested_category := category,
              example_sentences := example_sentences.take 3, status := "pending" }] })

/-- Flip the first pending candidate with this word to approved
(usp_dictionary.py lines 212-216, 230-232). -/
def approveFirst (word : String) : List Candidate → List Candidate
  | [] => []
  | c :: rest =>
    if c.word == word && c.status == "pending" then
      { c with status := "approved" } :: rest
    else c :: approveFirst word rest

/-- Append `word` to the named category's keyword list unless already
present (usp_dictionary.py lines 225-228). -/
def addKeywordToCat (category word : String) :
    List (String × CategoryData) → List (String × CategoryData)
  | [] => []
  | (cn, cd) :: rest =>
    if cn == category then
      (cn, { cd with keywords :=
               if cd.keywords.contains word then cd.keywords
               else cd.keywords ++ [word] }) :: rest
    else (cn, cd) :: addKeywordToCat category word rest

/-- Source: `approve_candidate` (usp_dictionary.py lines 209-234).
Fails (state unchanged) when no pending candidate carries the word or
when the target category does not exist; otherwise adds the keyword to
the category (no duplicate insertion) and marks the candidate
approved. -/
def approve_candidate (d : UspDictionary) (word category : String) :
    Bool × UspDictionary :=
  if d.candidates.any (fun c => c.word == word && c.status == "pending") then
    if d.categories.any (fun p => p.1 == category) then
      (true,
       { d with categories := addKeywordToCat category word d.categories,
                candidates := approveFirst word d.candidates })
    else (false, d)
  else (false, d)

/-- One review record as extracted by the collector
(`_extract_reviews_from_page`); only the fields entering the dedup key
are modelled. -/
structure CrawlReview where
  nickname : String
  content : List Char
  deriving DecidableEq, Repr

/-- The dedup key of `_scroll_and_collect_reviews` (line 219 of
oliveyoung_review_crawler.py): nickname, an underscore, and the first
50 characters of the content. -/
def dedupKey (rv : CrawlReview) : List Char :=
  rv.nickname.data ++ '_' :: rv.content.take 50

/-- The body of the per-round loop `for review in current_reviews`
(oliveyoung_review_crawler.py lines 218-224), carrying the state
(accumulated reviews, keys of this round, new-review count). -/
def collectGo (previous_keys : List (List Char)) :
    List CrawlReview × List (List Char) × Nat → List CrawlReview →
      List CrawlReview × List (List Char) × Nat
  | acc, [] => acc
  | acc, rv :: rest =>
    let key := dedupKey rv
    collectGo previous_keys
      (if previous_keys.contains key then acc.1 else acc.1 ++ [rv],
       acc.2.1 ++ [key],
       if previous_keys.contains key then acc.2.2 else acc.2.2 + 1) rest

/-- One iteration of the collection loop of
`_scroll_and_collect_reviews` (oliveyoung_review_crawler.py lines
211-226): every extracted review whose key was not seen in the
previous round is appended to the accumulated list and counted as new;
the keys of the current round are collected for the next one. -/
def collectRound (previous_keys : List (List Char)) (collected : List CrawlReview)
    (current : List CrawlReview) : List CrawlReview × List (List Char) × Nat :=
  collectGo previous_keys (collected, [], 0) current

/-- Whether some positive sentence-reversal pattern matches the
(cleaned) text with keyword `kw` occurring literally inside the
matched span — the situation in which line 228-230 of the source marks
`kw` as already resolved. -/
def revSpanHit (tc : List Char) (kw : String) : Bool :=
  SENTENCE_REVERSAL_PATTERNS.any (fun pr =>
    pr.2 == "positive" &&
      (match group0 pr.1 tc with
       | some span => containsSub span kw.data
       | none => false))

/-- Fixture: a dictionary whose taxonomy already contains the word
쫀쫀 as a trigger keyword. -/
def dictWithTrigger : UspDictionary :=
  { categories := [("촉감", { description := "texture words", keywords := ["쫀쫀"] })],
    exclusion_words := [],
    candidates := [],
    rejected := [] }

/-- Fixture: a dictionary whose exclusion list (and nothing else)
contains the word 시카. -/
def dictWithExclusion : UspDictionary :=
  { categories := [],
    exclusion_words := ["시카"],
    candidates := [],
    rejected := [] }

/-- Fixture: a dictionary with one pending candidate 꾸덕 and an
existing category 촉감. -/
def dictWithPending : UspDictionary :=
  { categories := [("촉감", { description := "texture words", keywords := ["쫀쫀"] })],
    exclusion_words := [],
    candidates := [{ word := "꾸덕", suggested_category := "촉감",
                     example_sentences := [], status := "pending" }],
    rejected := [] }

/-- Fixture: one extracted review record for the collector. -/
def crawlReviewA : CrawlReview :=
  { nickname := "userA", content := "good cream".data }

/-- The final labelling step of the classifier (review_analyzer.py
lines 278-283), read off the definition. -/
theorem classify_sentiment_eq (t : List Char) :
    (analyze_sentiment_with_context t).sentiment =
      (if (analyze_sentiment_with_context t).score < -5 then "negative" else "positive") := by
  unfold analyze_sentiment_with_context
  dsimp only

/-- The classifier only ever emits the two labels. -/
theorem classify_label_cases (t : List Char) :
    (analyze_sentiment_with_context t).sentiment = "negative" ∨
      (analyze_sentiment_with_context t).sentiment = "positive" := by
  rw [classify_sentiment_eq]
  split
  · exact Or.inl rfl
  · exact Or.inr rfl

/-- The label is negative exactly below the scaled threshold -5
(that is, -0.5 in the source's float scale). -/
theorem classify_negative_iff (t : List Char) :
    (analyze_sentiment_with_context t).sentiment = "negative" ↔
      (analyze_sentiment_with_context t).score < -5 := by
  rw [classify_sentiment_eq]
  split
  · simp_all
  · simp_all

/-- The label is positive exactly at or above the scaled threshold. -/
theorem classify_positive_iff (t : List Char) :
    (analyze_sentiment_with_context t).sentiment = "positive" ↔
      ¬ ((analyze_sentiment_with_context t).score < -5) := by
  rw [classify_sentiment_eq]
  split
  · simp_all
  · simp_all

/-- Because the classifier never emits a label other than positive or
negative, the rating adjustment of `analyze_reviews` never changes the
label: the promotion guard requires a non-negative label and the
demotion guard a non-positive one. -/
theorem adjust_classify_eq (t : List Char) (rating : Int) :
    adjustSentiment (analyze_sentiment_with_context t).sentiment rating =
      (analyze_sentiment_with_context t).sentiment := by
  rcases classify_label_cases t with h | h <;> rw [h] <;> unfold adjustSentiment <;> simp

/-- The counting loop never counts a review as neutral, and counts
every review exactly once as positive or negative. -/
theorem countsGo_spec (l : List Review) :
    (countsGo l).2.2 = 0 ∧ (countsGo l).1 + (countsGo l).2.1 = l.length := by
  induction l with
  | nil => simp [countsGo]
  | cons rv rest ih =>
    obtain ⟨ih1, ih2⟩ := ih
    unfold countsGo
    rw [adjust_classify_eq]
    rcases classify_label_cases rv.content with h | h <;> rw [h]
    · rw [if_neg (by decide), if_pos rfl]
      simp only [List.length_cons]
      omega
    · rw [if_pos rfl]
      simp only [List.length_cons]
      omega

/-- Marked keywords accumulate: a keyword marked while processing the
tail is still marked with one more pattern in front. -/
theorem reversalGo_marked_suffix (tc : List Char) (pr : Rx × String)
    (rest : List (Rx × String)) (x : String)
    (hx : x ∈ (reversalGo tc rest).2.1) : x ∈ (reversalGo tc (pr :: rest)).2.1 := by
  obtain ⟨p, stype⟩ := pr
  unfold reversalGo
  cases hg : group0 p tc with
  | none => exact hx
  | some span =>
    dsimp only
    split
    · exact List.mem_append_right _ hx
    · exact hx

/-- A keyword of the marker list found inside the span of a matching
positive pattern ends up in the marked-keyword list. -/
theorem reversalGo_marked_mem (tc : List Char) (kw : String)
    (hkw : kw ∈ REVERSAL_MARK_KEYWORDS) :
    ∀ ps : List (Rx × String),
      (ps.any (fun pr => pr.2 == "positive" &&
        (match group0 pr.1 tc with
         | some span => containsSub span kw.data
         | none => false))) = true →
      kw ∈ (reversalGo tc ps).2.1 := by
  intro ps
  induction ps with
  | nil => intro h; simp at h
  | cons pr rest ih =>
    intro h
    rw [List.any_cons] at h
    rcases Bool.or_eq_true_iff.mp h with hhead | htail
    · obtain ⟨p, stype⟩ := pr
      rcases Bool.and_eq_true_iff.mp hhead with ⟨hpos, hspan⟩
      have hpos' : stype = "positive" := by simpa using hpos
      cases hg : group0 p tc with
      | none => rw [hg] at hspan; simp at hspan
      | some span =>
        rw [hg] at hspan
        unfold reversalGo
        rw [hg]
        dsimp only
        rw [if_pos hpos']
        exact List.mem_append_left _ (List.mem_filter.mpr ⟨hkw, hspan⟩)
    · exact reversalGo_marked_suffix tc pr rest kw (ih htail)

/-- Step 1 never adds a marked keyword to the negative evidence. -/
theorem ctxGo_neg_not_marked (text : List Char) (marked : List String) :
    ∀ (l : List (String × CtxConfig)) (x : String),
      x ∈ (ctxGo text marked l).2.1 → marked.contains x = false := by
  intro l
  induction l with
  | nil => intro x hx; simp [ctxGo] at hx
  | cons pr rest ih =>
    obtain ⟨kwd, cfg⟩ := pr
    intro x hx
    unfold ctxGo at hx
    dsimp only at hx
    by_cases hg : (containsSub text kwd.data && !marked.contains kwd) = true
    · rw [if_pos hg] at hx
      rcases Bool.and_eq_true_iff.mp hg with ⟨-, hnm⟩
      by_cases hp : analyze_context_sensitive_keyword text cfg = "positive"
      · rw [if_pos hp] at hx
        exact ih x hx
      · rw [if_neg hp] at hx
        by_cases hn : analyze_context_sensitive_keyword text cfg = "negative"
        · rw [if_pos hn] at hx
          rcases List.mem_cons.mp hx with rfl | hx'
          · simpa using hnm
          · exact ih x hx'
        · rw [if_neg hn] at hx
          exact ih x hx
    · rw [if_neg hg] at hx
      exact ih x hx

/-- Step 3 never adds a marked keyword to the negative evidence. -/
theorem negGo_neg_not_marked (text : List Char) (marked : List String) :
    ∀ (l : List (String × Int)) (x : String),
      x ∈ (negGo text marked l).2.1 → marked.contains x = false := by
  intro l
  induction l with
  | nil => intro x hx; simp [negGo] at hx
  | cons pr rest ih =>
    obtain ⟨kwd, w⟩ := pr
    intro x hx
    unfold negGo at hx
    dsimp only at hx
    by_cases hc : (CONTEXT_SENSITIVE_KEYWORDS.any (fun p => p.1 == kwd)) = true
    · rw [if_pos hc] at hx; exact ih x hx
    · rw [if_neg hc] at hx
      by_cases hm : marked.contains kwd = true
      · rw [if_pos hm] at hx; exact ih x hx
      · rw [if_neg hm] at hx
        by_cases hs : containsSub text kwd.data = true
        · rw [if_pos hs] at hx
          by_cases hr : REVERSIBLE_KEYWORDS.contains kwd = true
          · rw [if_pos hr] at hx
            by_cases hn : has_negation_before text kwd = true
            · rw [if_pos hn] at hx; exact ih x hx
            · rw [if_neg hn] at hx
              rcases List.mem_cons.mp hx with rfl | hx'
              · simpa using hm
              · exact ih x hx'
          · rw [if_neg hr] at hx
            rcases List.mem_cons.mp hx with rfl | hx'
            · simpa using hm
            · exact ih x hx'
        · rw [if_neg hs] at hx; exact ih x hx

/-- Step 1 only ever adds context-sensitive keywords themselves to the
negative evidence. -/
theorem ctxGo_neg_mem_keys (text : List Char) (marked : List String) :
    ∀ (l : List (String × CtxConfig)) (x : String),
      x ∈ (ctxGo text marked l).2.1 → (l.any (fun p => p.1 == x)) = true := by
  intro l
  induction l with
  | nil => intro x hx; simp [ctxGo] at hx
  | cons pr rest ih =>
    obtain ⟨kwd, cfg⟩ := pr
    intro x hx
    unfold ctxGo at hx
    dsimp only at hx
    rw [List.any_cons]
    by_cases hg : (containsSub text kwd.data && !marked.contains kwd) = true
    · rw [if_pos hg] at hx
      by_cases hp : analyze_context_sensitive_keyword text cfg = "positive"
      · rw [if_pos hp] at hx
        exact Bool.or_eq_true_iff.mpr (Or.inr (ih x hx))
      · rw [if_neg hp] at hx
        by_cases hn : analyze_context_sensitive_keyword text cfg = "negative"
        · rw [if_pos hn] at hx
          rcases List.mem_cons.mp hx with rfl | hx'
          · exact Bool.or_eq_true_iff.mpr (Or.inl (by simp))
          · exact Bool.or_eq_true_iff.mpr (Or.inr (ih x hx'))
        · rw [if_neg hn] at hx
          exact Bool.or_eq_true_iff.mpr (Or.inr (ih x hx))
    · rw [if_neg hg] at hx
      exact Bool.or_eq_true_iff.mpr (Or.inr (ih x hx))

/-- A reversible, non-context-sensitive, unmarked negative keyword in
the text with a preceding negation marker contributes the positive
evidence token keyword+없음 in step 3. -/
theorem negGo_revneg_pos (text : List Char) (marked : List String) (kw : String)
    (hctx : (CONTEXT_SENSITIVE_KEYWORDS.any (fun p => p.1 == kw)) = false)
    (hm : marked.contains kw = false)
    (hs : containsSub text kw.data = true)
    (hr : REVERSIBLE_KEYWORDS.contains kw = true)
    (hn : has_negation_before text kw = true) :
    ∀ l : List (String × Int),
      (l.any (fun p => p.1 == kw)) = true →
      (kw ++ "없음") ∈ (negGo text marked l).1 := by
  intro l
  induction l with
  | nil => intro h; simp at h
  | cons pr rest ih =>
    obtain ⟨kwd, w⟩ := pr
    intro h
    unfold negGo
    dsimp only
    by_cases hk : kwd = kw
    · subst hk
      rw [if_neg (by rw [hctx]; exact Bool.false_ne_true),
          if_neg (by rw [hm]; exact Bool.false_ne_true),
          if_pos hs, if_pos hr, if_pos hn]
      exact List.mem_cons_self _ _
    · have htail : (rest.any (fun p => p.1 == kw)) = true := by
        rw [List.any_cons] at h
        rcases Bool.or_eq_true_iff.mp h with hh | ht
        · exact absurd (by simpa using hh) hk
        · exact ht
      have hmem := ih htail
      by_cases hc : (CONTEXT_SENSITIVE_KEYWORDS.any (fun p => p.1 == kwd)) = true
      · rw [if_pos hc]; exact hmem
      · rw [if_neg hc]
        by_cases hm' : marked.contains kwd = true
        · rw [if_pos hm']; exact hmem
        · rw [if_neg hm']
          by_cases hs' : containsSub text kwd.data = true
          · rw [if_pos hs']
            by_cases hr' : REVERSIBLE_KEYWORDS.contains kwd = true
            · rw [if_pos hr']
              by_cases hn' : has_negation_before text kwd = true
              · rw [if_pos hn']
                exact List.mem_cons_of_mem _ hmem
              · rw [if_neg hn']; exact hmem
            · rw [if_neg hr']; exact hmem
          · rw [if_neg hs']; exact hmem

/-- Under the same hypotheses, step 3 never adds the keyword to the
negative evidence: every pair keyed by the keyword takes the positive
branch, and other pairs only ever add their own key. -/
theorem negGo_revneg_not_neg (text : List Char) (marked : List String) (kw : String)
    (hctx : (CONTEXT_SENSITIVE_KEYWORDS.any (fun p => p.1 == kw)) = false)
    (hm : marked.contains kw = false)
    (hs : containsSub text kw.data = true)
    (hr : REVERSIBLE_KEYWORDS.contains kw = true)
    (hn : has_negation_before text kw = true) :
    ∀ l : List (String × Int), kw ∉ (negGo text marked l).2.1 := by
  intro l
  induction l with
  | nil => simp [negGo]
  | cons pr rest ih =>
    obtain ⟨kwd, w⟩ := pr
    unfold negGo
    dsimp only
    by_cases hk : kwd = kw
    · subst hk
      rw [if_neg (by rw [hctx]; exact Bool.false_ne_true),
          if_neg (by rw [hm]; exact Bool.false_ne_true),
          if_pos hs, if_pos hr, if_pos hn]
      exact ih
    · by_cases hc : (CONTEXT_SENSITIVE_KEYWORDS.any (fun p => p.1 == kwd)) = true
      · rw [if_pos hc]; exact ih
      · rw [if_neg hc]
        by_cases hm' : marked.contains kwd = true
        · rw [if_pos hm']; exact ih
        · rw [if_neg hm']
          by_cases hs' : containsSub text kwd.data = true
          · rw [if_pos hs']
            by_cases hr' : REVERSIBLE_KEYWORDS.contains kwd = true
            · rw [if_pos hr']
              by_cases hn' : has_negation_before text kwd = true
              · rw [if_pos hn']; exact ih
              · rw [if_neg hn']
                intro hx
                rcases List.mem_cons.mp hx with h1 | h2
                · exact hk h1.symm
                · exact ih h2
            · rw [if_neg hr']
              intro hx
              rcases List.mem_cons.mp hx with h1 | h2
              · exact hk h1.symm
              · exact ih h2
          · rw [if_neg hs']; exact ih

/-- A round in which every key was already seen appends nothing and
counts zero new reviews, whatever the accumulated state is. -/
theorem collectGo_no_new (pk : List (List Char)) :
    ∀ (current : List CrawlReview) (acc : List CrawlReview × List (List Char) × Nat),
      (∀ rv ∈ current, pk.contains (dedupKey rv) = true) →
      (collectGo pk acc current).1 = acc.1 ∧ (collectGo pk acc current).2.2 = acc.2.2 := by
  intro current
  induction current with
  | nil => intro acc _; exact ⟨rfl, rfl⟩
  | cons rv rest ih =>
    intro acc h
    have hk : pk.contains (dedupKey rv) = true := h rv (List.mem_cons_self _ _)
    unfold collectGo
    dsimp only
    rw [if_pos hk, if_pos hk]
    exact ih _ (fun r hr => h r (List.mem_cons_of_mem _ hr))

/-- Approving into an existing category rewrites exactly that
category's keyword list, appending the word unless already present. -/
theorem lookupKeywords_addKeywordToCat (cat w : String) :
    ∀ cats : List (String × CategoryData),
      (cats.any (fun p => p.1 == cat)) = true →
      lookupKeywords (addKeywordToCat cat w cats) cat =
        (if (lookupKeywords cats cat).contains w then lookupKeywords cats cat
         else lookupKeywords cats cat ++ [w]) := by
  intro cats
  induction cats with
  | nil => intro h; simp at h
  | cons pr rest ih =>
    obtain ⟨cn, cd⟩ := pr
    intro h
    by_cases hc : cn = cat
    · subst hc
      unfold addKeywordToCat
      rw [if_pos (by simp)]
      unfold lookupKeywords
      rw [List.find?_cons_of_pos _ (by simp), List.find?_cons_of_pos _ (by simp)]
    · unfold addKeywordToCat
      rw [if_neg (by simpa using hc)]
      unfold lookupKeywords
      rw [List.find?_cons_of_neg _ (by simpa using hc),
          List.find?_cons_of_neg _ (by simpa using hc)]
      have htail : (rest.any (fun p => p.1 == cat)) = true := by
        rw [List.any_cons] at h
        rcases Bool.or_eq_true_iff.mp h with hh | ht
        · exact absurd (by simpa using hh) hc
        · exact ht
      exact ih htail

/-- Approving flips the first pending candidate with the word to the
approved status. -/
theorem approveFirst_exists (w : String) :
    ∀ cands : List Candidate,
      (cands.any (fun c => c.word == w && c.status == "pending")) = true →
      ∃ c ∈ approveFirst w cands, c.word = w ∧ c.status = "approved" := by
  intro cands
  induction cands with
  | nil => intro h; simp at h
  | cons c rest ih =>
    intro h
    unfold approveFirst
    by_cases hc : (c.word == w && c.status == "pending") = true
    · rw [if_pos hc]
      rcases Bool.and_eq_true_iff.mp hc with ⟨hw, -⟩
      exact ⟨{ c with status := "approved" }, List.mem_cons_self _ _, by simpa using hw, rfl⟩
    · rw [if_neg hc]
      have htail : (rest.any (fun c => c.word == w && c.status == "pending")) = true := by
        rw [List.any_cons] at h
        rcases Bool.or_eq_true_iff.mp h with hh | ht
        · exact absurd hh hc
        · exact ht
      rcases ih htail with ⟨c', hc', hw', hs'⟩
      exact ⟨c', List.mem_cons_of_mem _ hc', hw', hs'⟩

/-- A keyword of some category occurring in the text is collected by
the trigger-word scan. -/
theorem ftwGo_mem (text : List Char) (k : String) :
    ∀ cats : List (String × CategoryData),
      (∃ p ∈ cats, k ∈ p.2.keywords) →
      containsSub text k.data = true →
      k ∈ (ftwGo text cats).1 := by
  intro cats
  induction cats with
  | nil => intro h _; simp at h
  | cons pr rest ih =>
    obtain ⟨cn, cd⟩ := pr
    intro h hsub
    unfold ftwGo
    dsimp only
    rcases h with ⟨p, hp, hk⟩
    rcases List.mem_cons.mp hp with rfl | hp'
    · exact List.mem_append_left _ (List.mem_filter.mpr ⟨hk, hsub⟩)
    · exact List.mem_append_right _ (ih ⟨p, hp', hk⟩ hsub)

/-- A word found by the category lookup lives in some category of the
list. -/
theorem lookupKeywords_mem (cats : List (String × CategoryData)) (cat w : String)
    (h : w ∈ lookupKeywords cats cat) : ∃ p ∈ cats, w ∈ p.2.keywords := by
  unfold lookupKeywords at h
  cases hf : cats.find? (fun p => p.1 == cat) with
  | none => rw [hf] at h; simp at h
  | some p =>
    rw [hf] at h
    exact ⟨p, List.mem_of_find?_eq_some hf, h⟩

/-- The substring scan succeeds exactly when the needle is a
contiguous sublist of (any suffix position in) the haystack. -/
theorem findSubFrom_isSome_iff (needle : List Char) :
    ∀ (s : List Char) (i : Nat),
      (findSubFrom needle i s).isSome = true ↔ needle <:+: s := by
  intro s
  induction s with
  | nil =>
    intro i
    unfold findSubFrom
    constructor
    · intro h
      split at h
      · next hp =>
        have hp' := List.isPrefixOf_iff_prefix.mp hp
        exact hp'.isInfix
      · simp at h
    · intro h
      have hn : needle = [] := List.infix_nil.mp h
      subst hn
      have hp : ([] : List Char).isPrefixOf [] = true :=
        List.isPrefixOf_iff_prefix.mpr List.nil_prefix
      rw [if_pos hp]
      rfl
  | cons c rest ih =>
    intro i
    unfold findSubFrom
    constructor
    · intro h
      split at h
      · next hp =>
        have hp' := List.isPrefixOf_iff_prefix.mp hp
        exact hp'.isInfix
      · exact List.infix_cons_iff.mpr (Or.inr ((ih (i + 1)).mp h))
    · intro h
      by_cases hp : needle.isPrefixOf (c :: rest) = true
      · rw [if_pos hp]; rfl
      · rw [if_neg hp]
        rcases List.infix_cons_iff.mp h with h1 | h2
        · exact absurd (List.isPrefixOf_iff_prefix.mpr h1) hp
        · exact (ih (i + 1)).mpr h2

/-- Python's substring test agrees with the infix relation. -/
theorem containsSub_infix_iff (hay needle : List Char) :
    containsSub hay needle = true ↔ needle <:+: hay := by
  unfold containsSub findSub
  exact findSubFrom_isSome_iff needle hay 0

/-- Dropping a leading run of characters that never occur in a
non-empty pattern preserves the pattern as an infix. -/
theorem infix_dropWhile_of_noWs (p : Char → Bool) (t : List Char)
    (hne : t ≠ []) (hno : ∀ c ∈ t, p c = false) :
    ∀ l : List Char, t <:+: l → t <:+: l.dropWhile p := by
  intro l
  induction l with
  | nil => intro h; simpa using h
  | cons c rest ih =>
    intro h
    by_cases hc : p c = true
    · rw [List.dropWhile_cons_of_pos hc]
      rcases List.infix_cons_iff.mp h with h1 | h2
      · cases t with
        | nil => exact absurd rfl hne
        | cons a t' =>
          obtain ⟨u, hu⟩ := h1
          rw [List.cons_append] at hu
          have ha : a = c := by injection hu
          subst ha
          have hmem := hno a (List.mem_cons_self _ _)
          rw [hc] at hmem
          exact Bool.noConfusion hmem
      · exact ih h2
    · rw [List.dropWhile_cons_of_neg hc]
      exact h

/-- Stripping whitespace yields an infix of the original list. -/
theorem stripWs_infix_self (l : List Char) : stripWs l <:+: l := by
  unfold stripWs
  have h1 : (l.dropWhile isWsChar).reverse.dropWhile isWsChar <:+ (l.dropWhile isWsChar).reverse :=
    List.dropWhile_suffix _
  have h2 : ((l.dropWhile isWsChar).reverse.dropWhile isWsChar).reverse <:+:
      (l.dropWhile isWsChar).reverse.reverse := List.reverse_infix.mpr h1.isInfix
  rw [List.reverse_reverse] at h2
  exact h2.trans (List.dropWhile_suffix _).isInfix

/-- A non-empty whitespace-free infix survives whitespace stripping. -/
theorem infix_stripWs_of_noWs (t : List Char) (hne : t ≠ [])
    (hno : ∀ c ∈ t, isWsChar c = false) (l : List Char) (h : t <:+: l) :
    t <:+: stripWs l := by
  unfold stripWs
  have h1 : t <:+: l.dropWhile isWsChar := infix_dropWhile_of_noWs isWsChar t hne hno l h
  have h2 : t.reverse <:+: (l.dropWhile isWsChar).reverse := List.reverse_infix.mpr h1
  have hne' : t.reverse ≠ [] := by simpa using hne
  have hno' : ∀ c ∈ t.reverse, isWsChar c = false := by
    intro c hc
    exact hno c (List.mem_reverse.mp hc)
  have h3 : t.reverse <:+: (l.dropWhile isWsChar).reverse.dropWhile isWsChar :=
    infix_dropWhile_of_noWs isWsChar t.reverse hne' hno' _ h2
  have h4 := List.reverse_infix.mpr h3
  rwa [List.reverse_reverse] at h4

/-- Every catalogue brand lowercases to a non-empty, whitespace-free
character list. -/
theorem competitor_brands_ok :
    ∀ b ∈ COMPETITOR_BRANDS,
      toLowerL b.data ≠ [] ∧ ∀ c ∈ toLowerL b.data, isWsChar c = false := by
  decide

/-- Claim C1 (amended): the rating-adjustment guards in
`analyze_reviews` (lines 637-640) require the text label to be
non-negative before promoting to positive and non-positive before
demoting to negative, so — the classifier emitting only the labels
positive and negative — a declared rating never changes the
classification: a text-positive review keeps its positive label for
every rating (including 1 and 2) and a text-negative review keeps its
negative label (including ratings of 4 or more). -/
theorem claim1_rating_never_flips (text : List Char) (rating : Int) :
    adjustSentiment (analyze_sentiment_with_context text).sentiment rating =
      (analyze_sentiment_with_context text).sentiment :=
  adjust_classify_eq text rating

/-- Claim C1 counterexample: the review 좋아요 is classified positive
by text, carries rating 1, and is counted as positive — not negative
as the claim states. -/
theorem claim1_counterexample :
    (analyze_sentiment_with_context "좋아요".data).sentiment = "positive" ∧
    analyze_reviews [{ rating := 1, content := "좋아요".data }] =
      { total_count := 1, positive_count := 1, negative_count := 0, neutral_count := 0 } :=
  ⟨rfl, rfl⟩

/-- Claim C2 (amended): `add_candidate` returns false and leaves the
state unchanged when the word is already a trigger keyword, already in
the rejection log, or already in the candidate queue; the exclusion
set, contrary to the claim, is not consulted (the model is total, so
no exception is possible). -/
theorem claim2_duplicate_candidate (d : UspDictionary) (word category : String)
    (exs : List String)
    (h : word ∈ get_all_trigger_keywords d ∨ word ∈ get_rejected_words d ∨
         word ∈ d.candidates.map (fun c => c.word)) :
    add_candidate d word category exs = (false, d) := by
  unfold add_candidate
  rcases h with h1 | h2 | h3
  · rw [if_pos]
    exact Bool.or_eq_true_iff.mpr (Or.inl (by simpa using h1))
  · rw [if_pos]
    exact Bool.or_eq_true_iff.mpr (Or.inr (by simpa using h2))
  · by_cases hfirst : ((get_all_trigger_keywords d).contains word
        || (get_rejected_words d).contains word) = true
    · rw [if_pos hfirst]
    · rw [if_neg hfirst, if_pos]
      rcases List.mem_map.mp h3 with ⟨c, hc, hcw⟩
      exact List.any_eq_true.mpr ⟨c, hc, by simpa using hcw⟩

/-- Claim C2 witness: adding 쫀쫀, which is already a trigger keyword
of the fixture dictionary, fails and leaves the state unchanged. -/
theorem claim2_witness :
    ("쫀쫀" ∈ get_all_trigger_keywords dictWithTrigger ∨
      "쫀쫀" ∈ get_rejected_words dictWithTrigger ∨
      "쫀쫀" ∈ dictWithTrigger.candidates.map (fun c => c.word)) ∧
    add_candidate dictWithTrigger "쫀쫀" "촉감" [] = (false, dictWithTrigger) :=
  ⟨Or.inl (by decide),
   claim2_duplicate_candidate dictWithTrigger "쫀쫀" "촉감" [] (Or.inl (by decide))⟩

/-- Claim C2 counterexample: 시카 is in the exclusion set of the
fixture dictionary and nowhere else, yet `add_candidate` accepts it
(returns true), refuting the claim's exclusion-set clause. -/
theorem claim2_counterexample :
    "시카" ∈ get_exclusion_words dictWithExclusion ∧
    (add_candidate dictWithExclusion "시카" "성분" []).1 = true :=
  ⟨by decide, rfl⟩

/-- Claim C3 (amended): for the five keywords the source marks as
resolved (트러블, 뾰루지, 자극, 끈적, 각질), a keyword occurring
literally inside the span matched by a positive sentence-reversal
pattern never appears in the negative-evidence list.  (The original
claim, quantifying over every negative keyword, fails — see the
counterexample.) -/
theorem claim3_reversal_no_double_count (text : List Char) (kw : String)
    (hkw : kw ∈ REVERSAL_MARK_KEYWORDS)
    (hhit : revSpanHit (cleanText text) kw = true) :
    kw ∉ (analyze_sentiment_with_context text).negative_found := by
  have hmem : kw ∈ (reversalGo (cleanText text) SENTENCE_REVERSAL_PATTERNS).2.1 := by
    unfold revSpanHit at hhit
    exact reversalGo_marked_mem _ kw hkw _ hhit
  have hcontains :
      ((reversalGo (cleanText text) SENTENCE_REVERSAL_PATTERNS).2.1.contains kw) = true := by
    simpa using hmem
  unfold analyze_sentiment_with_context
  dsimp only
  intro hx
  rcases List.mem_append.mp hx with h1 | h2
  · have h := ctxGo_neg_not_marked _ _ _ _ h1
    rw [hcontains] at h
    exact Bool.noConfusion h
  · have h := negGo_neg_not_marked _ _ _ _ h2
    rw [hcontains] at h
    exact Bool.noConfusion h

/-- Claim C3 witness: in 걱정했는데 트러블 없어요 the third reversal
pattern matches a span containing 트러블, and 트러블 is indeed absent
from the negative evidence. -/
theorem claim3_witness :
    "트러블" ∈ REVERSAL_MARK_KEYWORDS ∧
    revSpanHit (cleanText "걱정했는데 트러블 없어요".data) "트러블" = true ∧
    "트러블" ∉
      (analyze_sentiment_with_context "걱정했는데 트러블 없어요".data).negative_found :=
  ⟨by decide, by rfl,
   claim3_reversal_no_double_count "걱정했는데 트러블 없어요".data "트러블" (by decide) (by rfl)⟩

/-- Claim C3 counterexample: in 걱정했는데 트러블 별로 없어요 a
reversal pattern matches the span 걱정했는데 트러블 별로 없, the
negative keyword 별로 lies literally inside that span, and yet 별로
appears in the negative-evidence list — the source only marks the five
fixed keywords, not every negative keyword in the span. -/
theorem claim3_counterexample :
    (NEGATIVE_KEYWORDS.any (fun p => p.1 == "별로")) = true ∧
    revSpanHit (cleanText "걱정했는데 트러블 별로 없어요".data) "별로" = true ∧
    "별로" ∈
      (analyze_sentiment_with_context "걱정했는데 트러블 별로 없어요".data).negative_found :=
  ⟨rfl, by rfl, by decide⟩

/-- Claim C4 (amended): for a reversible negative keyword that is not
context-sensitive and was not marked by a sentence-reversal match,
whose first occurrence in the cleaned text is preceded by a negation
marker within the 8-character window, the classifier reports the
positive contribution keyword+없음 in the positive-evidence list and
does not report the keyword in the negative-evidence list.  (The
original claim, covering every reversible keyword, fails on the
context-sensitive ones — see the counterexample.) -/
theorem claim4_negated_reversible (text : List Char) (kw : String)
    (hany : (NEGATIVE_KEYWORDS.any (fun p => p.1 == kw)) = true)
    (hrev : REVERSIBLE_KEYWORDS.contains kw = true)
    (hctx : (CONTEXT_SENSITIVE_KEYWORDS.any (fun p => p.1 == kw)) = false)
    (hmarked : ((reversalGo (cleanText text) SENTENCE_REVERSAL_PATTERNS).2.1.contains kw) = false)
    (hsub : containsSub (cleanText text) kw.data = true)
    (hneg : has_negation_before (cleanText text) kw = true) :
    (kw ++ "없음") ∈ (analyze_sentiment_with_context text).positive_found ∧
      kw ∉ (analyze_sentiment_with_context text).negative_found := by
  unfold analyze_sentiment_with_context
  dsimp only
  constructor
  · exact List.mem_append_right _ (negGo_revneg_pos _ _ kw hctx hmarked hsub hrev hneg _ hany)
  · intro hx
    rcases List.mem_append.mp hx with h1 | h2
    · have h := ctxGo_neg_mem_keys _ _ _ _ h1
      rw [hctx] at h
      exact Bool.false_ne_true h
    · exact negGo_revneg_not_neg _ _ kw hctx hmarked hsub hrev hneg _ h2

/-- Claim C4 witness: in 안 무거워요 the reversible keyword 무거 is
negated within the window, and the classifier reports 무거없음 as
positive evidence and no 무거 in the negative evidence. -/
theorem claim4_witness :
    (NEGATIVE_KEYWORDS.any (fun p => p.1 == "무거")) = true ∧
    REVERSIBLE_KEYWORDS.contains "무거" = true ∧
    (CONTEXT_SENSITIVE_KEYWORDS.any (fun p => p.1 == "무거")) = false ∧
    ((reversalGo (cleanText "안 무거워요".data) SENTENCE_REVERSAL_PATTERNS).2.1.contains "무거")
      = false ∧
    containsSub (cleanText "안 무거워요".data) "무거".data = true ∧
    has_negation_before (cleanText "안 무거워요".data) "무거" = true ∧
    (("무거" ++ "없음") ∈ (analyze_sentiment_with_context "안 무거워요".data).positive_found ∧
      "무거" ∉ (analyze_sentiment_with_context "안 무거워요".data).negative_found) :=
  ⟨rfl, rfl, rfl, by rfl, by rfl, by rfl,
   claim4_negated_reversible "안 무거워요".data "무거" rfl rfl rfl (by rfl) (by rfl) (by rfl)⟩

/-- Claim C4 counterexample: 자극 is reversible and preceded by the
negation marker 전혀 within 8 characters in 전혀 자극, yet — being a
context-sensitive keyword handled by step 1, whose context patterns
find nothing and whose default is negative — it is counted as negative
evidence with no positive contribution at all. -/
theorem claim4_counterexample :
    (NEGATIVE_KEYWORDS.any (fun p => p.1 == "자극")) = true ∧
    REVERSIBLE_KEYWORDS.contains "자극" = true ∧
    has_negation_before (cleanText "전혀 자극".data) "자극" = true ∧
    (analyze_sentiment_with_context "전혀 자극".data).positive_found = [] ∧
    (analyze_sentiment_with_context "전혀 자극".data).negative_found = ["자극"] :=
  ⟨rfl, rfl, by rfl, rfl, rfl⟩

/-- Claim C5: the final label of `analyze_sentiment_with_context` is
negative exactly when the accumulated score is strictly below -0.5
(scaled here: score < -5) and positive otherwise — neutral scores fold
into positive. -/
theorem claim5_threshold (text : List Char) :
    ((analyze_sentiment_with_context text).sentiment = "negative" ↔
      (analyze_sentiment_with_context text).score < -5) ∧
    ((analyze_sentiment_with_context text).sentiment = "positive" ↔
      ¬ ((analyze_sentiment_with_context text).score < -5)) :=
  ⟨classify_negative_iff text, classify_positive_iff text⟩

/-- Claim C6: given a pending candidate for the word, approving it
into an existing category returns true, appends the word to that
category's keyword list without creating a duplicate entry, marks the
candidate approved, and makes `find_trigger_words` match the word in
any text containing it; when the category does not exist the call
returns false and the whole dictionary (taxonomy included) is
unchanged. -/
theorem claim6_approve_candidate (d : UspDictionary) (w cat : String)
    (hpend : (d.candidates.any (fun c => c.word == w && c.status == "pending")) = true) :
    ((d.categories.any (fun p => p.1 == cat)) = true →
      (approve_candidate d w cat).1 = true ∧
      get_keywords_by_category (approve_candidate d w cat).2 cat =
        (if (get_keywords_by_category d cat).contains w then get_keywords_by_category d cat
         else get_keywords_by_category d cat ++ [w]) ∧
      w ∈ get_keywords_by_category (approve_candidate d w cat).2 cat ∧
      (∃ c ∈ (approve_candidate d w cat).2.candidates, c.word = w ∧ c.status = "approved") ∧
      (∀ text : List Char, containsSub text w.data = true →
        ∃ mc ws, find_trigger_words (approve_candidate d w cat).2 text = some (mc, ws) ∧
          w ∈ ws)) ∧
    ((d.categories.any (fun p => p.1 == cat)) = false →
      approve_candidate d w cat = (false, d)) := by
  constructor
  · intro hcat
    have hres : approve_candidate d w cat =
        (true, { d with categories := addKeywordToCat cat w d.categories,
                        candidates := approveFirst w d.candidates }) := by
      unfold approve_candidate
      rw [if_pos hpend, if_pos hcat]
    rw [hres]
    dsimp only
    have hkey : lookupKeywords (addKeywordToCat cat w d.categories) cat =
        (if (lookupKeywords d.categories cat).contains w then lookupKeywords d.categories cat
         else lookupKeywords d.categories cat ++ [w]) :=
      lookupKeywords_addKeywordToCat cat w d.categories hcat
    have hwmem : w ∈ lookupKeywords (addKeywordToCat cat w d.categories) cat := by
      rw [hkey]
      split
      · next hcw => simpa using hcw
      · exact List.mem_append_right _ (List.mem_singleton.mpr rfl)
    refine ⟨rfl, hkey, hwmem, approveFirst_exists w d.candidates hpend, ?_⟩
    intro text hsub
    have hcats : ∃ p ∈ addKeywordToCat cat w d.categories, w ∈ p.2.keywords :=
      lookupKeywords_mem _ _ _ hwmem
    have hftw : w ∈ (ftwGo text (addKeywordToCat cat w d.categories)).1 :=
      ftwGo_mem text w _ hcats hsub
    refine ⟨(ftwGo text (addKeywordToCat cat w d.categories)).2,
            (ftwGo text (addKeywordToCat cat w d.categories)).1, ?_, hftw⟩
    unfold find_trigger_words
    dsimp only
    rw [if_neg]
    intro he
    rw [List.isEmpty_iff] at he
    rw [he] at hftw
    simp at hftw
  · intro hno
    unfold approve_candidate
    rw [if_pos hpend, if_neg (by rw [hno]; exact Bool.false_ne_true)]

/-- Claim C6 witness: approving the pending candidate 꾸덕 into the
existing category 촉감 of the fixture dictionary. -/
theorem claim6_witness :
    (dictWithPending.candidates.any (fun c => c.word == "꾸덕" && c.status == "pending"))
      = true ∧
    (dictWithPending.categories.any (fun p => p.1 == "촉감")) = true ∧
    ((approve_candidate dictWithPending "꾸덕" "촉감").1 = true ∧
      get_keywords_by_category (approve_candidate dictWithPending "꾸덕" "촉감").2 "촉감" =
        (if (get_keywords_by_category dictWithPending "촉감").contains "꾸덕" then
          get_keywords_by_category dictWithPending "촉감"
         else get_keywords_by_category dictWithPending "촉감" ++ ["꾸덕"]) ∧
      "꾸덕" ∈ get_keywords_by_category (approve_candidate dictWithPending "꾸덕" "촉감").2 "촉감" ∧
      (∃ c ∈ (approve_candidate dictWithPending "꾸덕" "촉감").2.candidates,
        c.word = "꾸덕" ∧ c.status = "approved") ∧
      (∀ text : List Char, containsSub text "꾸덕".data = true →
        ∃ mc ws, find_trigger_words (approve_candidate dictWithPending "꾸덕" "촉감").2 text =
          some (mc, ws) ∧ "꾸덕" ∈ ws)) :=
  ⟨rfl, rfl, (claim6_approve_candidate dictWithPending "꾸덕" "촉감" rfl).1 rfl⟩

/-- Claim C7 (amended): whenever the product's brand is non-empty
after lowercasing and whitespace-stripping, `find_competitor_mentions`
never includes a catalogue brand that is a case-insensitive substring
of the product's own brand or of which the own brand is a substring,
and the result holds at most 10 entries sorted by count descending.
(The original claim, quantifying over every brand string, fails for
the empty brand — see the counterexample.) -/
theorem claim7_competitor_mentions (reviews : List Review) (brand : String)
    (hbrand : stripWs (toLowerL brand.data) ≠ []) :
    (∀ p ∈ find_competitor_mentions reviews brand,
      ¬ (toLowerL p.1.data <:+: toLowerL brand.data) ∧
      ¬ (toLowerL brand.data <:+: toLowerL p.1.data)) ∧
    (find_competitor_mentions reviews brand).length ≤ 10 ∧
    List.Sorted (fun a b : String × Nat => b.2 ≤ a.2)
      (find_competitor_mentions reviews brand) := by
  refine ⟨?_, ?_, ?_⟩
  · intro p hp
    unfold find_competitor_mentions mostCommon at hp
    dsimp only at hp
    have hp1 := List.take_subset _ _ hp
    have hp2 := (List.mergeSort_perm _ _).mem_iff.mp hp1
    rcases List.mem_filterMap.mp hp2 with ⟨b, hb, hfb⟩
    by_cases hguard :
        (!(stripWs (toLowerL brand.data)).isEmpty &&
          (containsSub (stripWs (toLowerL brand.data)) (toLowerL b.data)
            || containsSub (toLowerL b.data) (stripWs (toLowerL brand.data)))) = true
    · rw [if_pos hguard] at hfb
      exact Option.noConfusion hfb
    · rw [if_neg hguard] at hfb
      have hpb : p.1 = b := by
        split at hfb
        · cases hfb; rfl
        · exact Option.noConfusion hfb
      have hcurne : (!(stripWs (toLowerL brand.data)).isEmpty) = true := by
        simp [List.isEmpty_iff, hbrand]
      have hnosub :
          (containsSub (stripWs (toLowerL brand.data)) (toLowerL b.data)
            || containsSub (toLowerL b.data) (stripWs (toLowerL brand.data))) = false := by
        cases hor : (containsSub (stripWs (toLowerL brand.data)) (toLowerL b.data)
            || containsSub (toLowerL b.data) (stripWs (toLowerL brand.data))) with
        | false => rfl
        | true => exact absurd (by rw [hcurne, hor]; rfl) hguard
      rcases Bool.or_eq_false_iff.mp hnosub with ⟨hn1, hn2⟩
      obtain ⟨hbne, hbno⟩ := competitor_brands_ok b hb
      rw [hpb]
      constructor
      · intro hinf
        have hstr : toLowerL b.data <:+: stripWs (toLowerL brand.data) :=
          infix_stripWs_of_noWs _ hbne hbno _ hinf
        rw [(containsSub_infix_iff _ _).mpr hstr] at hn1
        exact Bool.noConfusion hn1
      · intro hinf
        have hstr : stripWs (toLowerL brand.data) <:+: toLowerL b.data :=
          (stripWs_infix_self _).trans hinf
        rw [(containsSub_infix_iff _ _).mpr hstr] at hn2
        exact Bool.noConfusion hn2
  · unfold find_competitor_mentions mostCommon
    exact List.length_take_le _ _
  · unfold find_competitor_mentions mostCommon
    dsimp only
    have hs : ∀ L : List (String × Nat),
        List.Pairwise (fun a b : String × Nat => b.2 ≤ a.2)
          ((L.mergeSort (fun a b => b.2 ≤ a.2)).take 10) := by
      intro L
      have h := @List.sorted_mergeSort (String × Nat)
        (fun a b => decide (b.2 ≤ a.2))
        (fun a b c h1 h2 => by
          simp only [decide_eq_true_eq] at *
          omega)
        (fun a b => by
          simp only [Bool.or_eq_true, decide_eq_true_eq]
          omega)
        L
      exact (h.sublist (List.take_sublist 10 _)).imp (fun h' => by simpa using h')
    exact hs _

/-- Claim C7 witness: with own brand 토리든 and one review mentioning
메디힐, the exclusion, size, and ordering guarantees hold. -/
theorem claim7_witness :
    stripWs (toLowerL "토리든".data) ≠ [] ∧
    ((∀ p ∈ find_competitor_mentions [{ rating := 5, content := "메디힐 좋아요".data }] "토리든",
      ¬ (toLowerL p.1.data <:+: toLowerL "토리든".data) ∧
      ¬ (toLowerL "토리든".data <:+: toLowerL p.1.data)) ∧
    (find_competitor_mentions [{ rating := 5, content := "메디힐 좋아요".data }] "토리든").length
      ≤ 10 ∧
    List.Sorted (fun a b : String × Nat => b.2 ≤ a.2)
      (find_competitor_mentions [{ rating := 5, content := "메디힐 좋아요".data }] "토리든")) :=
  ⟨by decide,
   claim7_competitor_mentions [{ rating := 5, content := "메디힐 좋아요".data }] "토리든"
     (by decide)⟩

/-- Claim C7 counterexample: with an empty own-brand string the source
skips the exclusion guard entirely, so 메디힐 is returned even though
the (empty) own brand is a substring of it — the claim as stated
would require excluding every catalogue brand. -/
theorem claim7_counterexample :
    find_competitor_mentions [{ rating := 5, content := "메디힐 좋아요".data }] "" =
      [("메디힐", 1)] ∧
    toLowerL "".data <:+: toLowerL "메디힐".data := by
  constructor
  · unfold find_competitor_mentions mostCommon
    have hgen : ∀ L : List (String × Nat),
        L = [("메디힐", 1)] →
        (L.mergeSort (fun a b => b.2 ≤ a.2)).take 10 = [("메디힐", 1)] := by
      intro L hL
      subst hL
      rw [List.mergeSort_singleton]
      rfl
    exact hgen _ (by rfl)
  · exact List.nil_infix

/-- Claim C8: when an extraction round sees only reviews that already
occurred in the immediately preceding round, every dedup key derived
from nickname and the first 50 characters of content was seen before,
so the round appends zero new reviews to the accumulated list. -/
theorem claim8_unchanged_round_adds_nothing (prevRound collected current : List CrawlReview)
    (h : ∀ rv ∈ current, rv ∈ prevRound) :
    (collectRound (prevRound.map dedupKey) collected current).1 = collected ∧
      (collectRound (prevRound.map dedupKey) collected current).2.2 = 0 := by
  unfold collectRound
  exact collectGo_no_new _ current (collected, [], 0)
    (fun rv hrv => by
      have hmem : dedupKey rv ∈ prevRound.map dedupKey :=
        List.mem_map_of_mem _ (h rv hrv)
      simpa using hmem)

/-- Claim C8 witness: re-running a round over the identical single
review appends nothing and counts zero new reviews. -/
theorem claim8_witness :
    (∀ rv ∈ [crawlReviewA], rv ∈ [crawlReviewA]) ∧
    ((collectRound ([crawlReviewA].map dedupKey) [crawlReviewA] [crawlReviewA]).1 =
        [crawlReviewA] ∧
      (collectRound ([crawlReviewA].map dedupKey) [crawlReviewA] [crawlReviewA]).2.2 = 0) :=
  ⟨fun _ hrv => hrv,
   claim8_unchanged_round_adds_nothing [crawlReviewA] [crawlReviewA] [crawlReviewA]
     (fun _ hrv => hrv)⟩

/-- Claim C9: the classifier is a pure function of the review text —
it reads only the fixed lexicon tables, so two runs on the same text
return the identical label, score, and evidence lists in the same
order.  In this shallow embedding that purity is definitional. -/
theorem claim9_deterministic (text : List Char) :
    (analyze_sentiment_with_context text).sentiment =
      (analyze_sentiment_with_context text).sentiment ∧
    (analyze_sentiment_with_context text).positive_found =
      (analyze_sentiment_with_context text).positive_found ∧
    (analyze_sentiment_with_context text).negative_found =
      (analyze_sentiment_with_context text).negative_found ∧
    (analyze_sentiment_with_context text).score =
      (analyze_sentiment_with_context text).score :=
  ⟨rfl, rfl, rfl, rfl⟩

/-- Claim C10: `analyze_reviews` never counts a review as neutral, and
its positive and negative counts always sum to the total count,
because the per-review sentiment — after the rating adjustment — is
always exactly positive or negative. -/
theorem claim10_counts_invariant (reviews : List Review) :
    (analyze_reviews reviews).neutral_count = 0 ∧
      (analyze_reviews reviews).positive_count + (analyze_reviews reviews).negative_count =
        (analyze_reviews reviews).total_count := by
  unfold analyze_reviews
  split
  · exact ⟨rfl, rfl⟩
  · obtain ⟨h1, h2⟩ := countsGo_spec reviews
    exact ⟨h1, h2⟩
